import Mathlib

/-!
Shallow embedding of the comment-threading engine of the blogging-platform
API (src/src/services/comment.service.js together with the Comment mongoose
model, whose schema and hooks are the part of src/src/models that defines
commentSchema, and src/src/models/post.model.js), followed by theorems that
settle the frozen claims about it.

Modelling conventions:
- ObjectIds are opaque and modelled as Nat; the materialized path is the
  dot-joined string of ids exactly as the pre-save hook builds it.
- Timestamps are Nat milliseconds; Date.now() is passed in as a parameter.
- The document store is a pair of lists (posts, comments).  findOne /
  findById scan in order; save overwrites the matched document in place
  (modelled by replaceFirst at the same predicate used for the lookup,
  which coincides with Mongo semantics since _id is unique).
- Thrown errors become Except.error values of type Err.  ApiError carries
  its numeric status code; NotFoundError is status 404, ValidationError is
  status 400, a plain JS Error reaches the error middleware as status 500
  (src/src/utils/ApiError.js, src/src/middlewares/error.middleware.js).
- getDescendants uses the regex ^path\. on the stored path; on the ids the
  system generates the regex is exactly the string-prefix test path ++ ".",
  which is what strPre models (character-list prefix, because the kernel
  cannot evaluate String.isPrefixOf).
-/

namespace BlogApi

/-- One entry of the flaggedBy array of commentSchema: the flagging user,
the reason and the timestamp.  The details field pushed by flagComment is
not part of the subdocument schema, so mongoose strips it before
persisting; it is therefore not modelled. -/
structure FlagEntry where
  user : Nat
  reason : String
  timestamp : Nat
deriving DecidableEq, Repr

/-- A document of the Comment collection, following commentSchema field by
field.  The updatedAt bookkeeping timestamp is never read by the engine and
is omitted. -/
structure Comment where
  id : Nat
  content : String
  post : Nat
  author : Nat
  parentComment : Option Nat
  level : Nat
  path : String
  likes : List Nat
  likesCount : Nat
  repliesCount : Nat
  isEdited : Bool
  editedAt : Option Nat
  isFlagged : Bool
  flagReason : Option String
  flaggedBy : List FlagEntry
  isDeleted : Bool
  deletedAt : Option Nat
  deletedBy : Option Nat
  createdAt : Nat
deriving DecidableEq, Repr

/-- The slice of the Post collaborator the comment engine touches
(src/src/models/post.model.js): commentsCount and commentsEnabled. -/
structure Post where
  id : Nat
  commentsCount : Int
  commentsEnabled : Bool
deriving DecidableEq, Repr

/-- The persistent state: the two document collections. -/
structure DB where
  posts : List Post
  comments : List Comment
deriving DecidableEq, Repr

/-- Errors surfaced by the service layer.  notFound r models
NotFoundError(r) (status 404), api s m models ApiError(s, m), validation m
models ValidationError / a mongoose validation failure (status 400), js m
models a plain Error thrown from a mongoose hook, and referenceError n
models a JavaScript ReferenceError on the unresolved identifier n. -/
inductive Err where
  | notFound (resource : String)
  | api (statusCode : Nat) (message : String)
  | validation (message : String)
  | js (message : String)
  | referenceError (name : String)
deriving DecidableEq, Repr

/-- HTTP status attached to each error by src/src/utils/ApiError.js and the
error middleware (non-ApiError exceptions fall back to 500).  The repo
classes are: ValidationError 400, NotFoundError 404, ConflictError 409. -/
def Err.statusCode : Err → Nat
  | .notFound _ => 404
  | .api s _ => s
  | .validation _ => 400
  | .js _ => 500
  | .referenceError _ => 500

instance {ε α : Type} [DecidableEq ε] [DecidableEq α] : DecidableEq (Except ε α) := fun a b =>
  match a, b with
  | .error e, .error f => decidable_of_iff (e = f) (by simp)
  | .ok x, .ok y => decidable_of_iff (x = y) (by simp)
  | .error _, .ok _ => isFalse (fun h => Except.noConfusion h)
  | .ok _, .error _ => isFalse (fun h => Except.noConfusion h)

/-- String prefix test on the character lists; models both the JS
startsWith semantics and the anchored regex of getDescendants on the paths
the system generates. -/
def strPre (p s : String) : Bool := p.data.isPrefixOf s.data

/-- Mongoose trim: true on the content path strips leading and trailing
whitespace before validation. -/
def strTrim (s : String) : String :=
  String.mk (((s.data.dropWhile Char.isWhitespace).reverse.dropWhile Char.isWhitespace).reverse)

/-- Mongoose content validators of commentSchema: minlength 1, maxlength
2000 (checked on the trimmed content). -/
def contentOk (t : String) : Bool := 1 ≤ t.length && t.length ≤ 2000

/-- Overwrite the first document matching p with f applied to it; models a
mongoose save / findByIdAndUpdate of a single looked-up document. -/
def replaceFirst (p : α → Bool) (f : α → α) : List α → List α
  | [] => []
  | x :: xs => if p x then f x :: xs else x :: replaceFirst p f xs

/-- Comment.findOne with an _id filter plus isDeleted: false, the lookup
every mutating service method starts from. -/
def findActiveComment (comments : List Comment) (cid : Nat) : Option Comment :=
  comments.find? (fun c => c.id == cid && !c.isDeleted)

/-- Comment.findById: lookup by _id only, deleted documents included. -/
def findCommentById (comments : List Comment) (cid : Nat) : Option Comment :=
  comments.find? (fun c => c.id == cid)

/-- Post.findById. -/
def findPostById (posts : List Post) (pid : Nat) : Option Post :=
  posts.find? (fun p => p.id == pid)

/-- The pre-save hook of commentSchema for a new document: for a reply it
refetches the parent by id, assigns level := parent.level + 1, rejects
level > 5, builds the materialized path (falling back to the parent id if
the parent has no path), and rejects a parent from another post; a
top-level comment gets path := its own id and level 0.  Errors here are
plain JS Errors. -/
def assignLevelPath (comments : List Comment) (postId : Nat)
    (parentComment : Option Nat) (newId : Nat) : Except Err (Nat × String) :=
  match parentComment with
  | none => .ok (0, toString newId)
  | some pid =>
    match findCommentById comments pid with
    | none => .error (.js "Parent comment not found")
    | some parent =>
      if parent.level + 1 > 5 then
        .error (.js "Maximum comment nesting level reached")
      else
        let path :=
          if parent.path == "" then toString parent.id ++ "." ++ toString newId
          else parent.path ++ "." ++ toString newId
        if postId == parent.post then .ok (parent.level + 1, path)
        else .error (.js "Parent comment belongs to a different post")

/-- Comment.create: mongoose validation (trim plus length bounds) runs
first, then the pre-save hook assigns level and path, the document is
inserted, and the post-save hook increments the parent repliesCount for a
reply. -/
def commentCreate (db : DB) (postId uid : Nat) (content : String)
    (parentComment : Option Nat) (newId now : Nat) : Except Err (DB × Comment) :=
  let t := strTrim content
  if !(contentOk t) then .error (.validation "Comment validation failed")
  else
    match assignLevelPath db.comments postId parentComment newId with
    | .error e => .error e
    | .ok (level, path) =>
      let c : Comment :=
        { id := newId, content := t, post := postId, author := uid,
          parentComment := parentComment, level := level, path := path,
          likes := [], likesCount := 0, repliesCount := 0,
          isEdited := false, editedAt := none, isFlagged := false,
          flagReason := none, flaggedBy := [], isDeleted := false,
          deletedAt := none, deletedBy := none, createdAt := now }
      let comments1 := db.comments ++ [c]
      let comments2 :=
        match parentComment with
        | some pid =>
          replaceFirst (fun x => x.id == pid)
            (fun x => { x with repliesCount := x.repliesCount + 1 }) comments1
        | none => comments1
      .ok ({ db with comments := comments2 }, c)

/-- CommentService.createComment: post must exist with comments enabled;
for a reply the parent is looked up scoped to the same post and must not
be deleted, and its level must be below 5; the document is created, and
only a top-level creation increments Post.commentsCount. -/
def createComment (db : DB) (postId uid : Nat) (content : String)
    (parentComment : Option Nat) (newId now : Nat) : Except Err (DB × Comment) :=
  match findPostById db.posts postId with
  | none => .error (.notFound "Post")
  | some post =>
    if !post.commentsEnabled then
      .error (.api 403 "Comments are disabled for this post")
    else
      match parentComment with
      | some pid =>
        match db.comments.find? (fun c => c.id == pid && c.post == postId && !c.isDeleted) with
        | none => .error (.notFound "Parent comment")
        | some parent =>
          if 5 ≤ parent.level then
            .error (.validation "Maximum comment nesting level reached")
          else
            match commentCreate db postId uid content (some pid) newId now with
            | .error e => .error e
            | .ok (db1, c) => .ok (db1, c)
      | none =>
        match commentCreate db postId uid content none newId now with
        | .error e => .error e
        | .ok (db1, c) =>
          let posts2 :=
            replaceFirst (fun p => p.id == postId)
              (fun p => { p with commentsCount := p.commentsCount + 1 })
              db1.posts
          .ok ({ db1 with posts := posts2 }, c)

/-- Soft-delete mark written by Comment.softDelete for the target and every
descendant: isDeleted, deletedAt, deletedBy. -/
def markDeleted (uid now : Nat) (c : Comment) : Comment :=
  { c with isDeleted := true, deletedAt := some now, deletedBy := some uid }

/-- Descendant test of Comment.getDescendants: the stored path starts with
the target path followed by a dot. -/
def isUnder (t x : Comment) : Bool := strPre (t.path ++ ".") x.path

/-- Comment.softDelete: mark the target deleted and save it, refetch it by
id, sweep every descendant found by the path query, and return the total
number of documents deleted (descendants plus one). -/
def softDelete (comments : List Comment) (c : Comment) (uid now : Nat) :
    List Comment × Nat :=
  let comments1 :=
    replaceFirst (fun x => x.id == c.id && !x.isDeleted) (markDeleted uid now) comments
  match findCommentById comments1 c.id with
  | none => (comments1, 1)
  | some t =>
    let descendants := comments1.filter (isUnder t)
    (comments1.map (fun x => if isUnder t x then markDeleted uid now x else x),
     descendants.length + 1)

/-- CommentService.deleteComment: only the author or an admin may delete;
the cascade soft delete runs, and when the target was top-level the post
counter is decremented by the full deleted count. -/
def deleteComment (db : DB) (cid uid : Nat) (role : String) (now : Nat) :
    Except Err (DB × Nat) :=
  match findActiveComment db.comments cid with
  | none => .error (.notFound "Comment")
  | some c =>
    if !(c.author == uid) && !(role == "admin") then
      .error (.api 403 "You can only delete your own comments")
    else
      let swept := softDelete db.comments c uid now
      let posts2 :=
        if c.parentComment.isNone then
          replaceFirst (fun p => p.id == c.post)
            (fun p => { p with commentsCount := p.commentsCount - swept.2 })
            db.posts
        else db.posts
      .ok ({ posts := posts2, comments := swept.1 }, swept.2)

/-- Result shape of toggleLike. -/
structure LikeResult where
  liked : Bool
  likesCount : Nat
deriving DecidableEq, Repr

/-- Comment.toggleLike on the document: splice the user out of likes and
floor-decrement likesCount when present, otherwise push and increment. -/
def likeToggleTransform (uid : Nat) (c : Comment) : Comment :=
  if c.likes.any (fun l => l == uid) then
    { c with likes := c.likes.erase uid, likesCount := c.likesCount - 1 }
  else
    { c with likes := c.likes ++ [uid], likesCount := c.likesCount + 1 }

/-- CommentService.toggleLike: NotFound on a missing or deleted comment,
otherwise flip the caller's like and report the new state. -/
def toggleLike (db : DB) (cid uid : Nat) : Except Err (DB × LikeResult) :=
  match findActiveComment db.comments cid with
  | none => .error (.notFound "Comment")
  | some c =>
    let c1 := likeToggleTransform uid c
    let comments2 :=
      replaceFirst (fun x => x.id == cid && !x.isDeleted)
        (likeToggleTransform uid) db.comments
    .ok ({ db with comments := comments2 },
         { liked := !(c.likes.any (fun l => l == uid)), likesCount := c1.likesCount })

/-- Result shape of flagComment. -/
structure FlagResult where
  flagCount : Nat
  isFlagged : Bool
deriving DecidableEq, Repr

/-- The mutation flagComment performs on the document: append the flag
tuple, and once the flag count reaches 3 on a not-yet-flagged comment set
isFlagged and record the triggering reason. -/
def flagTransform (uid : Nat) (reason : String) (now : Nat) (c : Comment) : Comment :=
  let fb := c.flaggedBy ++ [{ user := uid, reason := reason, timestamp := now }]
  if 3 ≤ fb.length && !c.isFlagged then
    { c with flaggedBy := fb, isFlagged := true, flagReason := some reason }
  else
    { c with flaggedBy := fb }

/-- CommentService.flagComment: NotFound on a missing or deleted comment, a
second flag from the same user is rejected with ApiError(400), otherwise
the flag is appended and the threshold applied. -/
def flagComment (db : DB) (cid uid : Nat) (reason : String) (now : Nat) :
    Except Err (DB × FlagResult) :=
  match findActiveComment db.comments cid with
  | none => .error (.notFound "Comment")
  | some c =>
    if c.flaggedBy.any (fun f => f.user == uid) then
      .error (.api 400 "You have already flagged this comment")
    else
      let c1 := flagTransform uid reason now c
      let comments2 :=
        replaceFirst (fun x => x.id == cid && !x.isDeleted)
          (flagTransform uid reason now) db.comments
      .ok ({ db with comments := comments2 },
           { flagCount := c1.flaggedBy.length, isFlagged := c1.isFlagged })

/-- Edit window of updateComment: 15 minutes in milliseconds. -/
def editWindow : Nat := 15 * 60 * 1000

/-- CommentService.updateComment: NotFound on a missing or deleted comment,
403 for a non-author, 403 once the edit window has expired, then the
content is replaced (validated and trimmed by the schema on save) and
isEdited / editedAt are set. -/
def updateComment (db : DB) (cid uid : Nat) (content : String) (now : Nat) :
    Except Err (DB × Comment) :=
  match findActiveComment db.comments cid with
  | none => .error (.notFound "Comment")
  | some c =>
    if !(c.author == uid) then
      .error (.api 403 "You can only edit your own comments")
    else if editWindow < now - c.createdAt then
      .error (.api 403 "Comment edit window has expired")
    else
      let t := strTrim content
      if !(contentOk t) then .error (.validation "Comment validation failed")
      else
        let f := fun x : Comment =>
          { x with content := t, isEdited := true, editedAt := some now }
        let comments2 := replaceFirst (fun x => x.id == cid && !x.isDeleted) f db.comments
        .ok ({ db with comments := comments2 }, f c)

/-- Projection of a comment the read endpoints return after their likes
post-processing: the likes array is removed (none models the undefined
assignment) and isLikedByCurrentUser is present exactly when a viewer id
was supplied. -/
structure CommentView where
  id : Nat
  content : String
  post : Nat
  author : Nat
  parentComment : Option Nat
  level : Nat
  path : String
  likes : Option (List Nat)
  likesCount : Nat
  repliesCount : Nat
  isFlagged : Bool
  createdAt : Nat
  isLikedByCurrentUser : Option Bool
deriving DecidableEq, Repr

/-- The per-document post-processing of getCommentsByPost and
getCommentById: set likes to undefined, and with a known viewer annotate
isLikedByCurrentUser with membership of the viewer in likes. -/
def toView (userId : Option Nat) (c : Comment) : CommentView :=
  { id := c.id, content := c.content, post := c.post, author := c.author,
    parentComment := c.parentComment, level := c.level, path := c.path,
    likes := none, likesCount := c.likesCount, repliesCount := c.repliesCount,
    isFlagged := c.isFlagged, createdAt := c.createdAt,
    isLikedByCurrentUser := userId.map (fun u => c.likes.any (fun l => l == u)) }

/-- Pagination metadata of getCommentsByPost. -/
structure PaginationMeta where
  total : Nat
  page : Nat
  limit : Nat
  totalPages : Nat
  hasNextPage : Bool
  hasPrevPage : Bool
deriving DecidableEq, Repr

/-- Sort relation used to model the Mongo sort on a numeric key with an
ascending or descending order flag. -/
def sortRel (key : Comment → Nat) (desc : Bool) (a b : Comment) : Prop :=
  (if desc then key b else key a) ≤ (if desc then key a else key b)

instance (key : Comment → Nat) (desc : Bool) : DecidableRel (sortRel key desc) :=
  fun _ _ => Nat.decLe _ _

/-- Return shape of getCommentsByPost. -/
structure ListResult where
  comments : List CommentView
  pagination : PaginationMeta
deriving DecidableEq, Repr

/-- CommentService.getCommentsByPost: NotFound when the post is missing;
page is clamped to at least 1 and limit to 1..100; non-deleted comments of
the post matching the parent filter (top-level by default) are counted,
sorted, paginated, and post-processed by toView.  The dynamic sortBy field
of the source is modelled by the numeric key function. -/
def getCommentsByPost (db : DB) (postId : Nat) (page limit : Nat)
    (sortKey : Comment → Nat) (sortDesc : Bool) (parentArg : Option Nat)
    (userId : Option Nat) : Except Err ListResult :=
  match findPostById db.posts postId with
  | none => .error (.notFound "Post")
  | some _ =>
    let pageNum := max 1 page
    let limitNum := min 100 (max 1 limit)
    let skip := (pageNum - 1) * limitNum
    let found := db.comments.filter (fun c =>
      c.post == postId && !c.isDeleted &&
        (match parentArg with
         | none => c.parentComment == none
         | some pid => c.parentComment == some pid))
    let total := found.length
    let pageItems :=
      ((List.insertionSort (sortRel sortKey sortDesc) found).drop skip).take limitNum
    let meta : PaginationMeta :=
      { total := total, page := pageNum, limit := limitNum,
        totalPages := (total + limitNum - 1) / limitNum,
        hasNextPage := decide (pageNum * limitNum < total),
        hasPrevPage := decide (1 < pageNum) }
    .ok { comments := pageItems.map (toView userId), pagination := meta }

/-- Return shape of getCommentById: the comment plus its direct non-deleted
replies. -/
structure CommentWithReplies where
  comment : CommentView
  replies : List CommentView
deriving DecidableEq, Repr

/-- CommentService.getCommentById: NotFound on a missing or deleted
comment; direct non-deleted replies are fetched oldest first; the comment
and every reply go through the likes post-processing. -/
def getCommentById (db : DB) (cid : Nat) (userId : Option Nat) :
    Except Err CommentWithReplies :=
  match findActiveComment db.comments cid with
  | none => .error (.notFound "Comment")
  | some c =>
    let replies :=
      List.insertionSort (sortRel (fun x => x.createdAt) false)
        (db.comments.filter (fun x => x.parentComment == some cid && !x.isDeleted))
    .ok { comment := toView userId c, replies := replies.map (toView userId) }

/-- Return shape of getCommentStats. -/
structure CommentStats where
  totalComments : Nat
  totalLikes : Nat
  topLevelComments : Nat
  totalReplies : Nat
deriving DecidableEq, Repr

/-- The aggregation pipeline written in getCommentStats, as it would run:
match the non-deleted comments of the post, then count them, sum their
likesCount, and count the top-level ones and the replies. -/
def commentStatsAggregate (db : DB) (postId : Nat) : CommentStats :=
  let ms := db.comments.filter (fun c => c.post == postId && !c.isDeleted)
  { totalComments := ms.length,
    totalLikes := (ms.map (fun c => c.likesCount)).sum,
    topLevelComments := (ms.filter (fun c => c.parentComment == none)).length,
    totalReplies := (ms.filter (fun c => !(c.parentComment == none))).length }

/-- CommentService.getCommentStats as it actually executes: the service
module never requires mongoose, yet line 354 evaluates
mongoose.Types.ObjectId(postId), so every call raises
ReferenceError: mongoose is not defined before the aggregation runs. -/
def getCommentStats (_db : DB) (_postId : Nat) : Except Err CommentStats :=
  .error (.referenceError "mongoose")

/-! Concrete data used to instantiate the theorems on closed inputs. -/

/-- Shorthand for a stored comment with empty engagement state. -/
def mkStored (cid pid author : Nat) (par : Option Nat) (lvl : Nat) (p : String)
    (ts : Nat) : Comment :=
  { id := cid, content := "c", post := pid, author := author, parentComment := par,
    level := lvl, path := p, likes := [], likesCount := 0, repliesCount := 0,
    isEdited := false, editedAt := none, isFlagged := false, flagReason := none,
    flaggedBy := [], isDeleted := false, deletedAt := none, deletedBy := none,
    createdAt := ts }

def wp1 : Post := { id := 1, commentsCount := 2, commentsEnabled := true }

def wp2 : Post := { id := 2, commentsCount := 0, commentsEnabled := true }

def wp3 : Post := { id := 3, commentsCount := 0, commentsEnabled := false }

def wc10 : Comment := mkStored 10 1 7 none 0 "10" 0

def wc11 : Comment := mkStored 11 1 8 (some 10) 1 "10.11" 1

def wc12 : Comment := mkStored 12 1 7 (some 11) 2 "10.11.12" 2

def wc13 : Comment := mkStored 13 1 8 (some 12) 3 "10.11.12.13" 3

def wc14 : Comment := mkStored 14 1 7 (some 13) 4 "10.11.12.13.14" 4

def wc15 : Comment := mkStored 15 1 8 (some 14) 5 "10.11.12.13.14.15" 5

/-- A liked and twice-flagged top-level comment on post 1. -/
def wc20 : Comment :=
  { mkStored 20 1 9 none 0 "20" 6 with
    likes := [7, 8], likesCount := 2,
    flaggedBy := [{ user := 100, reason := "spam", timestamp := 1 },
                  { user := 101, reason := "offensive", timestamp := 2 }] }

def wdb : DB :=
  { posts := [wp1, wp2, wp3],
    comments := [wc10, wc11, wc12, wc13, wc14, wc15, wc20] }

/-- The state and document produced by a successful top-level creation on
the concrete store, used to instantiate the counter theorem. -/
def wCreate : DB × Comment :=
  ((createComment wdb 1 7 "hello" none 31 5).toOption).getD (wdb, wc10)

/-- The state produced by the first like toggle on the concrete store. -/
def wToggle : DB × LikeResult :=
  ((toggleLike wdb 20 7).toOption).getD (wdb, { liked := false, likesCount := 0 })

/-- The page returned by the concrete listing call. -/
def wList : ListResult :=
  ((getCommentsByPost wdb 1 1 20 (fun c => c.createdAt) true none (some 7)).toOption).getD
    { comments := [], pagination :=
        { total := 0, page := 1, limit := 20, totalPages := 0,
          hasNextPage := false, hasPrevPage := false } }

/-- The first view of the concrete page. -/
def wV : CommentView := wList.comments.getD 0 (toView none wc10)

/-- The state and document produced by a successful reply creation under
comment 10 on the concrete store. -/
def wReply : DB × Comment :=
  ((createComment wdb 1 8 "r" (some 10) 70 9).toOption).getD (wdb, wc10)

/-- The state produced by the third distinct flag on comment 20 of the
concrete store. -/
def wFlag : DB × FlagResult :=
  ((flagComment wdb 20 102 "spam" 9).toOption).getD
    (wdb, { flagCount := 0, isFlagged := false })

/-! Helper lemmas about the store primitives. -/

theorem markDeleted_id (uid now : Nat) (c : Comment) : (markDeleted uid now c).id = c.id := rfl

theorem markDeleted_path (uid now : Nat) (c : Comment) :
    (markDeleted uid now c).path = c.path := rfl

theorem markDeleted_isDeleted (uid now : Nat) (c : Comment) :
    (markDeleted uid now c).isDeleted = true := rfl

theorem findActive_spec {comments : List Comment} {cid : Nat} {c : Comment}
    (h : findActiveComment comments cid = some c) : c.id = cid ∧ c.isDeleted = false := by
  have hp := List.find?_some h
  simp only [Bool.and_eq_true, beq_iff_eq, Bool.not_eq_true'] at hp
  exact hp

theorem findActive_mem {comments : List Comment} {cid : Nat} {c : Comment}
    (h : findActiveComment comments cid = some c) : c ∈ comments :=
  List.mem_of_find?_eq_some h

theorem replaceFirst_eq_of_find?_eq_none {α : Type} {p : α → Bool} {f : α → α} {l : List α}
    (h : l.find? p = none) : replaceFirst p f l = l := by
  induction l with
  | nil => rfl
  | cons x xs ih =>
    by_cases hx : p x = true
    · rw [List.find?_cons_of_pos _ hx] at h
      cases h
    · rw [List.find?_cons_of_neg _ hx] at h
      simp only [replaceFirst]
      rw [if_neg hx, ih h]

theorem find?_replaceFirst_self {α : Type} {p : α → Bool} {f : α → α} {l : List α} {c : α}
    (h : l.find? p = some c) (hf : p (f c) = true) :
    (replaceFirst p f l).find? p = some (f c) := by
  induction l with
  | nil => cases h
  | cons x xs ih =>
    by_cases hx : p x = true
    · rw [List.find?_cons_of_pos _ hx] at h
      injection h with h
      subst h
      simp only [replaceFirst]
      rw [if_pos hx, List.find?_cons_of_pos _ hf]
    · rw [List.find?_cons_of_neg _ hx] at h
      simp only [replaceFirst]
      rw [if_neg hx, List.find?_cons_of_neg _ hx]
      exact ih h

theorem mem_replaceFirst {α : Type} {p : α → Bool} {f : α → α} {l : List α} {x : α}
    (h : x ∈ replaceFirst p f l) : x ∈ l ∨ ∃ y, y ∈ l ∧ x = f y := by
  induction l with
  | nil => cases h
  | cons a as ih =>
    by_cases ha : p a = true
    · simp only [replaceFirst] at h
      rw [if_pos ha] at h
      rcases List.mem_cons.mp h with h | h
      · exact Or.inr ⟨a, List.mem_cons_self a as, h⟩
      · exact Or.inl (List.mem_cons_of_mem a h)
    · simp only [replaceFirst] at h
      rw [if_neg ha] at h
      rcases List.mem_cons.mp h with h | h
      · exact Or.inl (h ▸ List.mem_cons_self a as)
      · rcases ih h with h | ⟨y, hy, hxy⟩
        · exact Or.inl (List.mem_cons_of_mem a h)
        · exact Or.inr ⟨y, List.mem_cons_of_mem a hy, hxy⟩

theorem find?_replaceFirst_other {α : Type} {p q : α → Bool} {f : α → α} {l : List α}
    (h : ∀ x, p x = true → q x = false ∧ q (f x) = false) :
    (replaceFirst p f l).find? q = l.find? q := by
  induction l with
  | nil => rfl
  | cons a as ih =>
    by_cases ha : p a = true
    · have hq := h a ha
      simp only [replaceFirst]
      rw [if_pos ha, List.find?_cons_of_neg _ (by simp [hq.2]),
        List.find?_cons_of_neg _ (by simp [hq.1])]
    · simp only [replaceFirst]
      rw [if_neg ha]
      by_cases hqa : q a = true
      · rw [List.find?_cons_of_pos _ hqa, List.find?_cons_of_pos _ hqa]
      · rw [List.find?_cons_of_neg _ hqa, List.find?_cons_of_neg _ hqa]
        exact ih

theorem length_filter_replaceFirst {α : Type} {p q : α → Bool} {f : α → α} {l : List α}
    (hq : ∀ x, q (f x) = q x) :
    ((replaceFirst p f l).filter q).length = (l.filter q).length := by
  induction l with
  | nil => rfl
  | cons a as ih =>
    by_cases ha : p a = true
    · simp only [replaceFirst]
      rw [if_pos ha]
      by_cases hqa : q a = true <;> simp [List.filter_cons, hq a, hqa]
    · simp only [replaceFirst]
      rw [if_neg ha]
      by_cases hqa : q a = true <;> simp [List.filter_cons, hqa, ih]

theorem find?_id_after_replace {l : List Comment} {cid : Nat} {c : Comment}
    {f : Comment → Comment}
    (hn : (l.map Comment.id).Nodup)
    (h : l.find? (fun x => x.id == cid && !x.isDeleted) = some c)
    (hfid : (f c).id = c.id) :
    (replaceFirst (fun x => x.id == cid && !x.isDeleted) f l).find? (fun x => x.id == cid)
      = some (f c) := by
  have hc : c.id = cid ∧ c.isDeleted = false := by
    have hp := List.find?_some h
    simp only [Bool.and_eq_true, beq_iff_eq, Bool.not_eq_true'] at hp
    exact hp
  induction l with
  | nil => cases h
  | cons a as ih =>
    simp only [List.map_cons, List.nodup_cons] at hn
    by_cases hpa : (a.id == cid && !a.isDeleted) = true
    · simp only [List.find?, hpa] at h
      have hac : a = c := by injection h
      subst hac
      simp only [replaceFirst]
      rw [if_pos hpa]
      have hfc : ((f a).id == cid) = true := by simp [hfid, hc.1]
      simp only [List.find?, hfc]
    · have hpaf : (a.id == cid && !a.isDeleted) = false := by
        simpa using hpa
      simp only [List.find?, hpaf] at h
      have hmem : c ∈ as := List.mem_of_find?_eq_some h
      by_cases hida : (a.id == cid) = true
      · exfalso
        apply hn.1
        have hacid : a.id = cid := by simpa using hida
        rw [hacid, ← hc.1]
        exact List.mem_map_of_mem Comment.id hmem
      · have hidaf : (a.id == cid) = false := by simpa using hida
        simp only [replaceFirst]
        rw [if_neg hpa]
        simp only [List.find?, hidaf]
        exact ih hn.2 h

theorem flagTransform_id (uid : Nat) (r : String) (now : Nat) (c : Comment) :
    (flagTransform uid r now c).id = c.id := by
  simp only [flagTransform]
  split <;> rfl

theorem flagTransform_isDeleted (uid : Nat) (r : String) (now : Nat) (c : Comment) :
    (flagTransform uid r now c).isDeleted = c.isDeleted := by
  simp only [flagTransform]
  split <;> rfl

theorem flagTransform_flaggedBy (uid : Nat) (r : String) (now : Nat) (c : Comment) :
    (flagTransform uid r now c).flaggedBy =
      c.flaggedBy ++ [{ user := uid, reason := r, timestamp := now }] := by
  simp only [flagTransform]
  split <;> rfl

theorem likeToggleTransform_id (uid : Nat) (c : Comment) :
    (likeToggleTransform uid c).id = c.id := by
  simp only [likeToggleTransform]
  split <;> rfl

theorem likeToggleTransform_isDeleted (uid : Nat) (c : Comment) :
    (likeToggleTransform uid c).isDeleted = c.isDeleted := by
  simp only [likeToggleTransform]
  split <;> rfl

theorem assignLevelPath_level_le {comments : List Comment} {postId : Nat}
    {parentComment : Option Nat} {newId lv : Nat} {pa : String}
    (h : assignLevelPath comments postId parentComment newId = .ok (lv, pa)) : lv ≤ 5 := by
  unfold assignLevelPath at h
  split at h
  · injection h with h
    injection h with h1 h2
    omega
  · split at h
    · cases h
    · split at h
      · cases h
      · rename_i hguard
        split at h <;> split at h
        · injection h with h
          injection h with h1 h2
          omega
        · cases h
        · injection h with h
          injection h with h1 h2
          omega
        · cases h

theorem assignLevelPath_reply {comments : List Comment} {postId pid newId : Nat}
    {parent : Comment} {lv : Nat} {pa : String}
    (hp : findCommentById comments pid = some parent)
    (h : assignLevelPath comments postId (some pid) newId = .ok (lv, pa)) :
    lv = parent.level + 1 ∧ parent.level + 1 ≤ 5 ∧ postId = parent.post ∧
      pa = (if parent.path == "" then toString parent.id ++ "." ++ toString newId
            else parent.path ++ "." ++ toString newId) := by
  simp only [assignLevelPath, hp] at h
  split at h
  · cases h
  · rename_i hguard
    split at h
    · rename_i hpostEq
      split at h
      · rename_i hpathEmpty
        injection h with h
        injection h with h1 h2
        refine ⟨h1.symm, by omega, by simpa using hpostEq, ?_⟩
        rw [if_pos hpathEmpty]
        exact h2.symm
      · rename_i hpathEmpty
        injection h with h
        injection h with h1 h2
        refine ⟨h1.symm, by omega, by simpa using hpostEq, ?_⟩
        rw [if_neg hpathEmpty]
        exact h2.symm
    · cases h

theorem commentCreate_ok_shape {db : DB} {postId uid : Nat} {content : String}
    {parentComment : Option Nat} {newId now : Nat} {db1 : DB} {nc : Comment}
    (h : commentCreate db postId uid content parentComment newId now = .ok (db1, nc)) :
    ∃ lv pa, assignLevelPath db.comments postId parentComment newId = .ok (lv, pa) ∧
      nc = { id := newId, content := strTrim content, post := postId, author := uid,
             parentComment := parentComment, level := lv, path := pa,
             likes := [], likesCount := 0, repliesCount := 0,
             isEdited := false, editedAt := none, isFlagged := false,
             flagReason := none, flaggedBy := [], isDeleted := false,
             deletedAt := none, deletedBy := none, createdAt := now } ∧
      db1.posts = db.posts ∧
      db1.comments =
        (match parentComment with
         | some pid =>
           replaceFirst (fun x => x.id == pid)
             (fun x => { x with repliesCount := x.repliesCount + 1 })
             (db.comments ++ [nc])
         | none => db.comments ++ [nc]) := by
  cases parentComment with
  | none =>
    simp only [commentCreate] at h
    split at h
    · cases h
    · split at h
      · cases h
      · rename_i lv pa heq
        injection h with h
        injection h with h1 h2
        subst h1
        subst h2
        exact ⟨lv, pa, heq, rfl, rfl, rfl⟩
  | some pid =>
    simp only [commentCreate] at h
    split at h
    · cases h
    · split at h
      · cases h
      · rename_i lv pa heq
        injection h with h
        injection h with h1 h2
        subst h1
        subst h2
        exact ⟨lv, pa, heq, rfl, rfl, rfl⟩

theorem createComment_ok_shape {db : DB} {postId uid : Nat} {content : String}
    {parentComment : Option Nat} {newId now : Nat} {db2 : DB} {nc : Comment}
    (h : createComment db postId uid content parentComment newId now = .ok (db2, nc)) :
    ∃ db1, commentCreate db postId uid content parentComment newId now = .ok (db1, nc) ∧
      db2.comments = db1.comments ∧
      (parentComment = none →
        db2.posts = replaceFirst (fun p => p.id == postId)
          (fun p => { p with commentsCount := p.commentsCount + 1 }) db1.posts) ∧
      (parentComment.isSome = true → db2.posts = db1.posts) := by
  cases parentComment with
  | some pid =>
    simp only [createComment] at h
    split at h
    · cases h
    · split at h
      · cases h
      · split at h
        · cases h
        · split at h
          · cases h
          · split at h
            · cases h
            · rename_i db1 c hcc
              injection h with h
              injection h with h1 h2
              subst h1
              subst h2
              refine ⟨db1, hcc, rfl, ?_, ?_⟩
              · intro hx
                exact Option.noConfusion hx
              · intro _
                rfl
  | none =>
    simp only [createComment] at h
    split at h
    · cases h
    · split at h
      · cases h
      · split at h
        · cases h
        · rename_i db1 c hcc
          injection h with h
          injection h with h1 h2
          subst h1
          subst h2
          refine ⟨db1, hcc, rfl, ?_, ?_⟩
          · intro _
            rfl
          · intro hx
            exact Bool.noConfusion hx

theorem deleteComment_ok_shape {db : DB} {cid uid : Nat} {role : String} {now : Nat}
    {db2 : DB} {n : Nat} {c : Comment}
    (hfind : findActiveComment db.comments cid = some c)
    (h : deleteComment db cid uid role now = .ok (db2, n)) :
    n = (softDelete db.comments c uid now).2 ∧
    db2.comments = (softDelete db.comments c uid now).1 ∧
    (c.parentComment.isNone = true →
      db2.posts = replaceFirst (fun p => p.id == c.post)
        (fun p => { p with commentsCount := p.commentsCount - ((softDelete db.comments c uid now).2 : Int) })
        db.posts) ∧
    (c.parentComment.isNone = false → db2.posts = db.posts) := by
  simp only [deleteComment, hfind] at h
  split at h
  · cases h
  · injection h with h
    injection h with h1 h2
    subst h2
    subst h1
    refine ⟨rfl, rfl, ?_, ?_⟩
    · intro hiso
      simp [hiso]
    · intro hiso
      simp [hiso]

/-! Claim theorems. -/

/-- C9: the claim says stats(postId) returns the aggregate over the
non-deleted comments of the post, computed fresh.  The code cannot return
anything: comment.service.js never requires mongoose, yet getCommentStats
evaluates mongoose.Types.ObjectId(postId) (line 354), so every call raises
ReferenceError before the aggregation runs.  This theorem evaluates the
service call on the concrete store; commentStatsAggregate is the
aggregation the source pipeline describes, for comparison. -/
theorem C9_stats_reference_error :
    getCommentStats wdb 1 = .error (.referenceError "mongoose") ∧
      (Err.referenceError "mongoose").statusCode = 500 := ⟨rfl, rfl⟩

/-- C5 counterexample: comment 10 exists, is not deleted, and belongs to
post 1; creating a comment on post 2 (which exists with comments enabled)
with parentId 10 fails with NotFound("Parent comment"), an error of
status 404 — not a Conflict (409) error as the claim states. -/
theorem C5_conflict_counterexample :
    createComment wdb 2 7 "hi" (some 10) 50 9 = .error (.notFound "Parent comment") ∧
      findActiveComment wdb.comments 10 = some wc10 ∧ wc10.post = 1 ∧
      (Err.notFound "Parent comment").statusCode = 404 ∧
      ¬(Err.notFound "Parent comment").statusCode = 409 := by
  exact ⟨by decide, by decide, rfl, rfl, by decide⟩

/-- C5 (amended): with the post present and comments enabled, a create
call whose parentId matches no non-deleted comment of the same post —
whether the parent is missing, deleted, or belongs to a different post —
fails with NotFound("Parent comment"); an error result carries no store,
so nothing is persisted.  The service scopes the parent lookup to the
postId, which is why a wrong-post parent surfaces as NotFound rather than
the Conflict the spec names. -/
theorem C5_parent_not_found (db : DB) (postId uid : Nat) (content : String)
    (pid newId now : Nat) (post : Post)
    (hpost : findPostById db.posts postId = some post)
    (hen : post.commentsEnabled = true)
    (hparent : db.comments.find?
        (fun c => c.id == pid && c.post == postId && !c.isDeleted) = none) :
    createComment db postId uid content (some pid) newId now =
      .error (.notFound "Parent comment") := by
  simp [createComment, hpost, hen, hparent]

/-- C5 witness: parent id 99 matches nothing on post 2. -/
theorem C5_parent_not_found_witness :
    createComment wdb 2 7 "hi" (some 99) 51 9 = .error (.notFound "Parent comment") :=
  C5_parent_not_found wdb 2 7 "hi" 99 51 9 wp2 (by decide) (by decide) (by decide)

/-- C8 counterexample: comment 10 was created at time 0 by user 7; an
update by its author just after the 15-minute window fails with
ApiError(403, "Comment edit window has expired") — status 403, the
Forbidden class, not the Validation class (status 400) the claim
states. -/
theorem C8_validation_counterexample :
    updateComment wdb 10 7 "new content" (editWindow + 1) =
        .error (.api 403 "Comment edit window has expired") ∧
      (Err.api 403 "Comment edit window has expired").statusCode = 403 ∧
      ¬(Err.api 403 "Comment edit window has expired").statusCode = 400 := by
  exact ⟨by decide, rfl, by decide⟩

/-- C8 (amended): updateComment succeeds only when called by the author
while at most 15 minutes have passed since creation; once the window has
expired the call fails with the 403 ApiError "Comment edit window has
expired" (a Forbidden-class error, not Validation-class), and the error
result carries no store, so content, isEdited and editedAt are
unchanged. -/
theorem C8_edit_window :
    (∀ db cid uid content now db2 c2,
      updateComment db cid uid content now = .ok (db2, c2) →
      ∃ c, findActiveComment db.comments cid = some c ∧ c.author = uid ∧
        now - c.createdAt ≤ editWindow)
  ∧ (∀ db cid uid content now c,
      findActiveComment db.comments cid = some c →
      c.author = uid →
      editWindow < now - c.createdAt →
      updateComment db cid uid content now =
        .error (.api 403 "Comment edit window has expired")) := by
  constructor
  · intro db cid uid content now db2 c2 h
    simp only [updateComment] at h
    split at h
    · cases h
    · rename_i c hfind
      split at h
      · cases h
      · rename_i hauth
        split at h
        · cases h
        · rename_i hwin
          exact ⟨c, hfind, by simpa using hauth, by omega⟩
  · intro db cid uid content now c hfind hauth hwin
    simp [updateComment, hfind, hauth, hwin]

/-- C8 witness: the expired-window branch evaluated on the concrete
store. -/
theorem C8_edit_window_witness :
    updateComment wdb 10 7 "x" (editWindow + 1) =
      .error (.api 403 "Comment edit window has expired") :=
  C8_edit_window.2 wdb 10 7 "x" (editWindow + 1) wc10 (by decide) (by decide) (by decide)

/-- C4: nesting is capped at level 5.  First conjunct: a successful create
preserves the invariant that every stored comment has level at most 5 (the
new document is checked by the hook, and the only other touched document
keeps its level).  Second conjunct: when the post exists with comments
enabled and the parent lookup finds a comment of level at least 5, the
call fails with the validation error "Maximum comment nesting level
reached"; the error result carries no store, so nothing is persisted. -/
theorem C4_nesting_cap :
    (∀ db postId uid content parentComment newId now db2 nc,
      (∀ x ∈ db.comments, x.level ≤ 5) →
      createComment db postId uid content parentComment newId now = .ok (db2, nc) →
      ∀ x ∈ db2.comments, x.level ≤ 5)
  ∧ (∀ db postId uid content pid newId now post parent,
      findPostById db.posts postId = some post →
      post.commentsEnabled = true →
      db.comments.find?
          (fun c => c.id == pid && c.post == postId && !c.isDeleted) = some parent →
      5 ≤ parent.level →
      createComment db postId uid content (some pid) newId now =
        .error (.validation "Maximum comment nesting level reached")) := by
  constructor
  · intro db postId uid content parentComment newId now db2 nc hinv h x hx
    obtain ⟨db1, hcc, hco, _, _⟩ := createComment_ok_shape h
    obtain ⟨lv, pa, hassign, hnc, _, hcomm⟩ := commentCreate_ok_shape hcc
    have hncl : nc.level ≤ 5 := by
      rw [hnc]
      exact assignLevelPath_level_le hassign
    rw [hco, hcomm] at hx
    cases parentComment with
    | none =>
      rcases List.mem_append.mp hx with hxm | hxm
      · exact hinv x hxm
      · rw [List.mem_singleton.mp hxm]
        exact hncl
    | some pid =>
      rcases mem_replaceFirst hx with hxm | ⟨y, hy, hxy⟩
      · rcases List.mem_append.mp hxm with hxm2 | hxm2
        · exact hinv x hxm2
        · rw [List.mem_singleton.mp hxm2]
          exact hncl
      · have hyl : y.level ≤ 5 := by
          rcases List.mem_append.mp hy with hym | hym
          · exact hinv y hym
          · rw [List.mem_singleton.mp hym]
            exact hncl
        rw [hxy]
        exact hyl
  · intro db postId uid content pid newId now post parent hpost hen hparent h5
    simp [createComment, hpost, hen, hparent, h5]

/-- C4 witness: replying under the level-5 comment 15 fails with the
validation error. -/
theorem C4_nesting_cap_witness :
    createComment wdb 1 7 "x" (some 15) 60 9 =
      .error (.validation "Maximum comment nesting level reached") :=
  C4_nesting_cap.2 wdb 1 7 "x" 15 60 9 wp1 wc15 (by decide) (by decide) (by decide)
    (by decide)

/-- C3: a reply created under a parent (whose stored path is the nonempty
string the system always assigns) gets level = parent.level + 1 and
path = parent.path ++ "." ++ its own id; a top-level comment gets level 0
and its own id as path. -/
theorem C3_reply_level_path :
    (∀ db postId uid content pid newId now db2 nc parent,
      createComment db postId uid content (some pid) newId now = .ok (db2, nc) →
      findCommentById db.comments pid = some parent →
      parent.path ≠ "" →
      nc.id = newId ∧ nc.level = parent.level + 1 ∧
        nc.path = parent.path ++ "." ++ toString nc.id)
  ∧ (∀ db postId uid content newId now db2 nc,
      createComment db postId uid content none newId now = .ok (db2, nc) →
      nc.level = 0 ∧ nc.path = toString nc.id) := by
  constructor
  · intro db postId uid content pid newId now db2 nc parent h hp hne
    obtain ⟨db1, hcc, _, _, _⟩ := createComment_ok_shape h
    obtain ⟨lv, pa, hassign, hnc, _, _⟩ := commentCreate_ok_shape hcc
    obtain ⟨hlv, _, _, hpa⟩ := assignLevelPath_reply hp hassign
    have hid : nc.id = newId := by rw [hnc]
    have hlev : nc.level = lv := by rw [hnc]
    have hpath : nc.path = pa := by rw [hnc]
    have hempty : ¬((parent.path == "") = true) := by simpa using hne
    refine ⟨hid, ?_, ?_⟩
    · rw [hlev]
      exact hlv
    · rw [hid, hpath, hpa, if_neg hempty]
  · intro db postId uid content newId now db2 nc h
    obtain ⟨db1, hcc, _, _, _⟩ := createComment_ok_shape h
    obtain ⟨lv, pa, hassign, hnc, _, _⟩ := commentCreate_ok_shape hcc
    have h0 : assignLevelPath db.comments postId none newId = .ok (0, toString newId) := rfl
    rw [h0] at hassign
    injection hassign with hq
    injection hq with h1 h2
    have hid : nc.id = newId := by rw [hnc]
    have hlev : nc.level = lv := by rw [hnc]
    have hpath : nc.path = pa := by rw [hnc]
    constructor
    · rw [hlev]
      exact h1.symm
    · rw [hid, hpath]
      exact h2.symm

/-- C3 witness: the concrete reply 70 under comment 10. -/
theorem C3_reply_level_path_witness :
    wReply.2.id = 70 ∧ wReply.2.level = wc10.level + 1 ∧
      wReply.2.path = wc10.path ++ "." ++ toString wReply.2.id :=
  C3_reply_level_path.1 wdb 1 8 "r" 10 70 9 wReply.1 wReply.2 wc10 (by decide)
    (by decide) (by decide)

theorem flagTransform_isFlagged (uid : Nat) (r : String) (now : Nat) (c : Comment) :
    (flagTransform uid r now c).isFlagged =
      (c.isFlagged || decide (3 ≤ c.flaggedBy.length + 1)) := by
  by_cases h3 : 3 ≤ c.flaggedBy.length + 1 <;> cases hcf : c.isFlagged <;>
    simp [flagTransform, h3, hcf]

theorem flagTransform_flagReason (uid : Nat) (r : String) (now : Nat) (c : Comment) :
    (flagTransform uid r now c).flagReason =
      (if 3 ≤ c.flaggedBy.length + 1 ∧ c.isFlagged = false then some r
       else c.flagReason) := by
  by_cases h3 : 3 ≤ c.flaggedBy.length + 1 <;> cases hcf : c.isFlagged <;>
    simp [flagTransform, h3, hcf]

/-- C6 counterexample: user 100 already flagged comment 20; the second
flag call fails with ApiError(400, "You have already flagged this
comment") — status 400, not the 409 Conflict class the claim states (the
repo even defines a ConflictError class with status 409 that this path
does not use). -/
theorem C6_conflict_counterexample :
    flagComment wdb 20 100 "spam" 9 =
        .error (.api 400 "You have already flagged this comment") ∧
      (Err.api 400 "You have already flagged this comment").statusCode = 400 ∧
      ¬(Err.api 400 "You have already flagged this comment").statusCode = 409 := by
  exact ⟨by decide, rfl, by decide⟩

/-- C6 (amended): a second flag by the same user fails with the 400
ApiError "You have already flagged this comment" (not the repo's 409
ConflictError class), and the error result carries no store, so the flag
list is unchanged.  A successful flag appends the tuple; isFlagged becomes
the old flag state or-ed with whether the new count reached 3, so on a
not-yet-flagged comment it flips exactly when the distinct-flagger count
reaches 3; once flagged it stays flagged and flagReason is never
overwritten; distinctness of the flaggers is preserved, so the stored
count is the distinct-flagger count. -/
theorem C6_flag_threshold :
    (∀ db cid uid reason now c,
      findActiveComment db.comments cid = some c →
      c.flaggedBy.any (fun f => f.user == uid) = true →
      flagComment db cid uid reason now =
        .error (.api 400 "You have already flagged this comment"))
  ∧ (∀ db cid uid reason now c db2 r,
      findActiveComment db.comments cid = some c →
      flagComment db cid uid reason now = .ok (db2, r) →
      ∃ c2, findActiveComment db2.comments cid = some c2 ∧
        c2.flaggedBy =
          c.flaggedBy ++ [{ user := uid, reason := reason, timestamp := now }] ∧
        c2.isFlagged = (c.isFlagged || decide (3 ≤ c.flaggedBy.length + 1)) ∧
        (c.isFlagged = false →
          c2.flagReason =
            (if 3 ≤ c.flaggedBy.length + 1 then some reason else c.flagReason)) ∧
        (c.isFlagged = true → c2.isFlagged = true ∧ c2.flagReason = c.flagReason) ∧
        ((c.flaggedBy.map (fun f => f.user)).Nodup →
          (c2.flaggedBy.map (fun f => f.user)).Nodup) ∧
        r = { flagCount := c2.flaggedBy.length, isFlagged := c2.isFlagged }) := by
  constructor
  · intro db cid uid reason now c hfind hdup
    simp [flagComment, hfind, hdup]
  · intro db cid uid reason now c db2 r hfind h
    simp only [flagComment, hfind] at h
    split at h
    · cases h
    · rename_i hdup
      injection h with h
      injection h with h1 h2
      subst h1
      subst h2
      have hspec := findActive_spec hfind
      have hp : ((flagTransform uid reason now c).id == cid &&
          !(flagTransform uid reason now c).isDeleted) = true := by
        simp [flagTransform_id, flagTransform_isDeleted, hspec.1, hspec.2]
      refine ⟨flagTransform uid reason now c, find?_replaceFirst_self hfind hp,
        flagTransform_flaggedBy uid reason now c,
        flagTransform_isFlagged uid reason now c, ?_, ?_, ?_, rfl⟩
      · intro hcf
        rw [flagTransform_flagReason]
        by_cases h3 : 3 ≤ c.flaggedBy.length + 1 <;> simp [h3, hcf]
      · intro hcf
        constructor
        · rw [flagTransform_isFlagged, hcf]
          rfl
        · rw [flagTransform_flagReason]
          simp [hcf]
      · intro hnd
        rw [flagTransform_flaggedBy]
        have huid : uid ∉ c.flaggedBy.map (fun f => f.user) := by
          intro hm
          obtain ⟨f, hf, hfu⟩ := List.mem_map.mp hm
          have : c.flaggedBy.any (fun f => f.user == uid) = true :=
            List.any_eq_true.mpr ⟨f, hf, by simp [hfu]⟩
          exact hdup this
        simp [List.nodup_append, hnd, huid]

/-- C6 witness: the third distinct flag on comment 20 of the concrete
store trips the threshold. -/
theorem C6_flag_threshold_witness :
    ∃ c2, findActiveComment wFlag.1.comments 20 = some c2 ∧
      c2.flaggedBy =
        wc20.flaggedBy ++ [{ user := 102, reason := "spam", timestamp := 9 }] ∧
      c2.isFlagged = (wc20.isFlagged || decide (3 ≤ wc20.flaggedBy.length + 1)) ∧
      (wc20.isFlagged = false →
        c2.flagReason =
          (if 3 ≤ wc20.flaggedBy.length + 1 then some "spam" else wc20.flagReason)) ∧
      (wc20.isFlagged = true → c2.isFlagged = true ∧ c2.flagReason = wc20.flagReason) ∧
      ((wc20.flaggedBy.map (fun f => f.user)).Nodup →
        (c2.flaggedBy.map (fun f => f.user)).Nodup) ∧
      wFlag.2 = { flagCount := c2.flaggedBy.length, isFlagged := c2.isFlagged } :=
  C6_flag_threshold.2 wdb 20 102 "spam" 9 wc20 wFlag.1 wFlag.2 (by decide) (by decide)

/-- C2: Post.commentsCount moves only with top-level operations.  A
successful top-level creation increments the owning post's counter by
exactly 1 and touches no other post; a successful reply creation leaves
every post untouched; a successful deletion of a top-level comment
decrements the owning post's counter by exactly the full cascade-deleted
count and touches no other post; deleting a reply leaves every post
untouched. -/
theorem C2_post_counter_sync :
    (∀ db postId uid content newId now db2 nc,
      createComment db postId uid content none newId now = .ok (db2, nc) →
      (∀ p, db.posts.find? (fun x => x.id == postId) = some p →
        db2.posts.find? (fun x => x.id == postId) =
          some { p with commentsCount := p.commentsCount + 1 }) ∧
      (∀ q, q ≠ postId →
        db2.posts.find? (fun x => x.id == q) = db.posts.find? (fun x => x.id == q)))
  ∧ (∀ db postId uid content pid newId now db2 nc,
      createComment db postId uid content (some pid) newId now = .ok (db2, nc) →
      db2.posts = db.posts)
  ∧ (∀ db cid uid role now db2 n c,
      deleteComment db cid uid role now = .ok (db2, n) →
      findActiveComment db.comments cid = some c →
      c.parentComment = none →
      (∀ p, db.posts.find? (fun x => x.id == c.post) = some p →
        db2.posts.find? (fun x => x.id == c.post) =
          some { p with commentsCount := p.commentsCount - (n : Int) }) ∧
      (∀ q, q ≠ c.post →
        db2.posts.find? (fun x => x.id == q) = db.posts.find? (fun x => x.id == q)))
  ∧ (∀ db cid uid role now db2 n c pc,
      deleteComment db cid uid role now = .ok (db2, n) →
      findActiveComment db.comments cid = some c →
      c.parentComment = some pc →
      db2.posts = db.posts) := by
  refine ⟨?_, ?_, ?_, ?_⟩
  · intro db postId uid content newId now db2 nc h
    obtain ⟨db1, hcc, _, hpn, _⟩ := createComment_ok_shape h
    obtain ⟨_, _, _, _, hposts, _⟩ := commentCreate_ok_shape hcc
    have hdb2 : db2.posts = replaceFirst (fun p => p.id == postId)
        (fun p => { p with commentsCount := p.commentsCount + 1 }) db.posts := by
      rw [hpn rfl, hposts]
    constructor
    · intro p hp
      rw [hdb2]
      have hpp := List.find?_some hp
      exact find?_replaceFirst_self hp hpp
    · intro q hq
      rw [hdb2]
      apply find?_replaceFirst_other
      intro x hx
      have hxid : x.id = postId := by simpa using hx
      constructor
      · simp only [beq_eq_false_iff_ne, ne_eq, hxid]
        exact fun hh => hq hh.symm
      · simp only [beq_eq_false_iff_ne, ne_eq]
        show ¬x.id = q
        rw [hxid]
        exact fun hh => hq hh.symm
  · intro db postId uid content pid newId now db2 nc h
    obtain ⟨db1, hcc, _, _, hps⟩ := createComment_ok_shape h
    obtain ⟨_, _, _, _, hposts, _⟩ := commentCreate_ok_shape hcc
    rw [hps rfl, hposts]
  · intro db cid uid role now db2 n c h hfind hpc
    obtain ⟨hn, _, hpi, _⟩ := deleteComment_ok_shape hfind h
    have hdb2 : db2.posts = replaceFirst (fun p => p.id == c.post)
        (fun p => { p with commentsCount :=
          p.commentsCount - ((softDelete db.comments c uid now).2 : Int) }) db.posts :=
      hpi (by rw [hpc]; rfl)
    constructor
    · intro p hp
      rw [hdb2, hn]
      have hpp := List.find?_some hp
      exact find?_replaceFirst_self hp hpp
    · intro q hq
      rw [hdb2]
      apply find?_replaceFirst_other
      intro x hx
      have hxid : x.id = c.post := by simpa using hx
      constructor
      · simp only [beq_eq_false_iff_ne, ne_eq, hxid]
        exact fun hh => hq hh.symm
      · simp only [beq_eq_false_iff_ne, ne_eq]
        show ¬x.id = q
        rw [hxid]
        exact fun hh => hq hh.symm
  · intro db cid uid role now db2 n c pc h hfind hpc
    obtain ⟨_, _, _, hpe⟩ := deleteComment_ok_shape hfind h
    exact hpe (by rw [hpc]; rfl)

/-- C2 witness: the concrete top-level creation bumps the counter of post
1 from 2 to 3. -/
theorem C2_post_counter_sync_witness :
    wCreate.1.posts.find? (fun x => x.id == 1) =
      some { wp1 with commentsCount := wp1.commentsCount + 1 } :=
  (C2_post_counter_sync.1 wdb 1 7 "hello" 31 5 wCreate.1 wCreate.2 (by decide)).1
    wp1 (by decide)

/-- C1: an authorized deletion of a non-deleted comment succeeds, returns
1 plus the number of stored comments whose path extends the target path by
a dot (so a comment with no descendants returns 1), and afterwards every
such descendant is marked deleted.  The id-uniqueness hypothesis mirrors
the Mongo _id constraint. -/
theorem C1_softDelete_cascade (db : DB) (cid uid : Nat) (role : String) (now : Nat)
    (c : Comment)
    (hn : (db.comments.map Comment.id).Nodup)
    (hfind : findActiveComment db.comments cid = some c)
    (hauth : c.author = uid ∨ role = "admin") :
    ∃ db2, deleteComment db cid uid role now =
        .ok (db2,
          1 + (db.comments.filter (fun x => strPre (c.path ++ ".") x.path)).length) ∧
      ∀ d ∈ db2.comments, strPre (c.path ++ ".") d.path = true → d.isDeleted = true := by
  have hcid : c.id = cid := (findActive_spec hfind).1
  have hfind' : db.comments.find? (fun x => x.id == c.id && !x.isDeleted) = some c := by
    simp only [hcid]
    exact hfind
  have hbyid : (replaceFirst (fun x => x.id == c.id && !x.isDeleted)
        (markDeleted uid now) db.comments).find? (fun x => x.id == c.id)
      = some (markDeleted uid now c) :=
    find?_id_after_replace hn hfind' rfl
  have hsd : softDelete db.comments c uid now =
      ((replaceFirst (fun x => x.id == c.id && !x.isDeleted) (markDeleted uid now)
          db.comments).map
        (fun x => if isUnder (markDeleted uid now c) x then markDeleted uid now x else x),
       ((replaceFirst (fun x => x.id == c.id && !x.isDeleted) (markDeleted uid now)
          db.comments).filter (isUnder (markDeleted uid now c))).length + 1) := by
    simp only [softDelete, findCommentById, hbyid]
  have hiu : isUnder (markDeleted uid now c) =
      (fun y : Comment => strPre (c.path ++ ".") y.path) := rfl
  have hflen : ((replaceFirst (fun x => x.id == c.id && !x.isDeleted)
        (markDeleted uid now) db.comments).filter
        (fun y : Comment => strPre (c.path ++ ".") y.path)).length
      = (db.comments.filter (fun y : Comment => strPre (c.path ++ ".") y.path)).length :=
    length_filter_replaceFirst (fun x => rfl)
  have hcnt : (softDelete db.comments c uid now).2 =
      1 + (db.comments.filter (fun x => strPre (c.path ++ ".") x.path)).length := by
    rw [hsd]
    simp only [hiu]
    rw [hflen]
    omega
  have hAuthF : (!(c.author == uid) && !(role == "admin")) = false := by
    rcases hauth with h | h <;> simp [h]
  rcases hres : deleteComment db cid uid role now with e | pr
  · exfalso
    simp [deleteComment, hfind, hAuthF] at hres
  · obtain ⟨db2, n⟩ := pr
    obtain ⟨hn2, hcm, _, _⟩ := deleteComment_ok_shape hfind hres
    refine ⟨db2, ?_, ?_⟩
    · rw [hn2, hcnt]
    · intro d hd hpre
      rw [hcm, hsd] at hd
      obtain ⟨x, hx, hgx⟩ := List.mem_map.mp hd
      by_cases hu : isUnder (markDeleted uid now c) x = true
      · rw [← hgx, if_pos hu]
        rfl
      · exfalso
        apply hu
        rw [← hgx] at hpre
        simp only [if_neg hu] at hpre
        exact hpre

/-- C1 witness: the author deletes the concrete comment 10, sweeping its
five descendants. -/
theorem C1_softDelete_cascade_witness :
    ∃ db2, deleteComment wdb 10 7 "user" 99 =
        .ok (db2,
          1 + (wdb.comments.filter (fun x => strPre (wc10.path ++ ".") x.path)).length) ∧
      ∀ d ∈ db2.comments, strPre (wc10.path ++ ".") d.path = true → d.isDeleted = true :=
  C1_softDelete_cascade wdb 10 7 "user" 99 wc10 (by decide) (by decide) (Or.inl rfl)

theorem likeToggle_likes_of_mem (uid : Nat) (c : Comment)
    (hm : c.likes.any (fun l => l == uid) = true) :
    (likeToggleTransform uid c).likes = c.likes.erase uid := by
  simp only [likeToggleTransform, if_pos hm]

theorem likeToggle_likes_of_not_mem (uid : Nat) (c : Comment)
    (hm : ¬(c.likes.any (fun l => l == uid) = true)) :
    (likeToggleTransform uid c).likes = c.likes ++ [uid] := by
  simp only [likeToggleTransform, if_neg hm]

theorem likeToggle_liked_flip (uid : Nat) (c : Comment) (hnd : c.likes.Nodup) :
    (likeToggleTransform uid c).likes.any (fun l => l == uid)
      = !(c.likes.any (fun l => l == uid)) := by
  by_cases hm : c.likes.any (fun l => l == uid) = true
  · have hne : uid ∉ c.likes.erase uid := fun hmem => ((hnd.mem_erase_iff).mp hmem).1 rfl
    have herase : (c.likes.erase uid).any (fun l => l == uid) = false := by
      cases hq : (c.likes.erase uid).any (fun l => l == uid)
      · rfl
      · exfalso
        obtain ⟨x, hx, hxe⟩ := List.any_eq_true.mp hq
        have hxu : x = uid := by simpa using hxe
        exact hne (hxu ▸ hx)
    rw [likeToggle_likes_of_mem uid c hm, hm, herase]
    rfl
  · have hm' : c.likes.any (fun l => l == uid) = false := Bool.eq_false_iff.mpr hm
    rw [likeToggle_likes_of_not_mem uid c hm, hm']
    simp

theorem likeToggle_nodup (uid : Nat) (c : Comment) (hnd : c.likes.Nodup) :
    (likeToggleTransform uid c).likes.Nodup := by
  by_cases hm : c.likes.any (fun l => l == uid) = true
  · rw [likeToggle_likes_of_mem uid c hm]
    exact hnd.erase uid
  · rw [likeToggle_likes_of_not_mem uid c hm]
    have huid : uid ∉ c.likes := by
      intro hmem
      exact hm (List.any_eq_true.mpr ⟨uid, hmem, by simp⟩)
    simp [List.nodup_append, hnd, huid]

theorem likeToggle_count (uid : Nat) (c : Comment) :
    (likeToggleTransform uid c).likesCount =
      (if c.likes.any (fun l => l == uid) = true then c.likesCount - 1
       else c.likesCount + 1) := by
  by_cases hm : c.likes.any (fun l => l == uid) = true
  · rw [if_pos hm]
    simp only [likeToggleTransform, if_pos hm]
  · rw [if_neg hm]
    simp only [likeToggleTransform, if_neg hm]

theorem likeToggle_count_round (uid : Nat) (c : Comment) (hnd : c.likes.Nodup)
    (hmir : c.likesCount = c.likes.length) :
    (likeToggleTransform uid (likeToggleTransform uid c)).likesCount = c.likesCount := by
  by_cases hm : c.likes.any (fun l => l == uid) = true
  · have hlen : 0 < c.likes.length := by
      obtain ⟨x, hx, _⟩ := List.any_eq_true.mp hm
      exact List.length_pos_of_mem hx
    have hflip : (likeToggleTransform uid c).likes.any (fun l => l == uid) = false := by
      rw [likeToggle_liked_flip uid c hnd, hm]
      rfl
    rw [likeToggle_count uid (likeToggleTransform uid c), if_neg (by simp [hflip]),
      likeToggle_count uid c, if_pos hm]
    omega
  · have hm' : c.likes.any (fun l => l == uid) = false := Bool.eq_false_iff.mpr hm
    have hflip : (likeToggleTransform uid c).likes.any (fun l => l == uid) = true := by
      rw [likeToggle_liked_flip uid c hnd, hm']
      rfl
    rw [likeToggle_count uid (likeToggleTransform uid c), if_pos hflip,
      likeToggle_count uid c, if_neg hm]
    omega

/-- C7: toggleLike on a missing or deleted comment fails with NotFound and
carries no store change; on a stored comment whose likes list is duplicate
free and mirrored by likesCount (the invariant creation and toggling
maintain), two successive toggles by the same user succeed, the second
call reports the original liked state and the original likesCount, and the
stored comment is back to its original liked state and count. -/
theorem C7_toggleLike_involution :
    (∀ db cid uid,
      findActiveComment db.comments cid = none →
      toggleLike db cid uid = .error (.notFound "Comment"))
  ∧ (∀ db cid uid c db1 r1,
      findActiveComment db.comments cid = some c →
      c.likes.Nodup →
      c.likesCount = c.likes.length →
      toggleLike db cid uid = .ok (db1, r1) →
      ∃ db2 r2, toggleLike db1 cid uid = .ok (db2, r2) ∧
        r2.liked = c.likes.any (fun l => l == uid) ∧
        r2.likesCount = c.likesCount ∧
        ∃ c2, findActiveComment db2.comments cid = some c2 ∧
          c2.likes.any (fun l => l == uid) = c.likes.any (fun l => l == uid) ∧
          c2.likesCount = c.likesCount) := by
  constructor
  · intro db cid uid hnone
    simp [toggleLike, hnone]
  · intro db cid uid c db1 r1 hfind hnd hmir h
    have hspec := findActive_spec hfind
    simp only [toggleLike, hfind] at h
    injection h with h
    injection h with h1 h2
    subst h1
    subst h2
    have hp1 : ((likeToggleTransform uid c).id == cid &&
        !(likeToggleTransform uid c).isDeleted) = true := by
      simp [likeToggleTransform_id, likeToggleTransform_isDeleted, hspec.1, hspec.2]
    have hfind1 : (replaceFirst (fun x => x.id == cid && !x.isDeleted)
          (likeToggleTransform uid) db.comments).find?
        (fun x => x.id == cid && !x.isDeleted) = some (likeToggleTransform uid c) :=
      find?_replaceFirst_self hfind hp1
    have hp2 : ((likeToggleTransform uid (likeToggleTransform uid c)).id == cid &&
        !(likeToggleTransform uid (likeToggleTransform uid c)).isDeleted) = true := by
      simp [likeToggleTransform_id, likeToggleTransform_isDeleted, hspec.1, hspec.2]
    refine ⟨⟨db.posts,
        replaceFirst (fun x => x.id == cid && !x.isDeleted) (likeToggleTransform uid)
          (replaceFirst (fun x => x.id == cid && !x.isDeleted) (likeToggleTransform uid)
            db.comments)⟩,
      ⟨!((likeToggleTransform uid c).likes.any (fun l => l == uid)),
        (likeToggleTransform uid (likeToggleTransform uid c)).likesCount⟩,
      ?_, ?_, ?_, ?_⟩
    · simp only [toggleLike, findActiveComment, hfind1]
    · show (!((likeToggleTransform uid c).likes.any (fun l => l == uid)))
          = c.likes.any (fun l => l == uid)
      rw [likeToggle_liked_flip uid c hnd, Bool.not_not]
    · exact likeToggle_count_round uid c hnd hmir
    · refine ⟨likeToggleTransform uid (likeToggleTransform uid c),
        find?_replaceFirst_self hfind1 hp2, ?_,
        likeToggle_count_round uid c hnd hmir⟩
      rw [likeToggle_liked_flip uid (likeToggleTransform uid c) (likeToggle_nodup uid c hnd),
        likeToggle_liked_flip uid c hnd, Bool.not_not]

/-- C7 witness: user 7 double-toggles the concrete comment 20. -/
theorem C7_toggleLike_involution_witness :
    ∃ db2 r2, toggleLike wToggle.1 20 7 = .ok (db2, r2) ∧
      r2.liked = wc20.likes.any (fun l => l == 7) ∧
      r2.likesCount = wc20.likesCount ∧
      ∃ c2, findActiveComment db2.comments 20 = some c2 ∧
        c2.likes.any (fun l => l == 7) = wc20.likes.any (fun l => l == 7) ∧
        c2.likesCount = wc20.likesCount :=
  C7_toggleLike_involution.2 wdb 20 7 wc20 wToggle.1 wToggle.2 (by decide) (by decide)
    (by decide) (by decide)

/-- C10: every comment and reply returned by the two read endpoints has
its likes array removed, and when a viewer is supplied each returned item
carries isLikedByCurrentUser true exactly when the viewer is in the stored
likes list (absent when no viewer is known, since the map over the viewer
option is then none). -/
theorem C10_likes_privacy :
    (∀ db postId page limit sortKey sortDesc parentArg viewer res,
      getCommentsByPost db postId page limit sortKey sortDesc parentArg viewer = .ok res →
      ∀ v ∈ res.comments, v.likes = none ∧
        ∃ c ∈ db.comments, v = toView viewer c ∧
          v.isLikedByCurrentUser = viewer.map (fun u => c.likes.any (fun l => l == u)))
  ∧ (∀ db cid viewer res,
      getCommentById db cid viewer = .ok res →
      (res.comment.likes = none ∧
        ∃ c ∈ db.comments, res.comment = toView viewer c ∧
          res.comment.isLikedByCurrentUser =
            viewer.map (fun u => c.likes.any (fun l => l == u))) ∧
      ∀ v ∈ res.replies, v.likes = none ∧
        ∃ c ∈ db.comments, v = toView viewer c ∧
          v.isLikedByCurrentUser = viewer.map (fun u => c.likes.any (fun l => l == u))) := by
  constructor
  · intro db postId page limit sortKey sortDesc parentArg viewer res h
    simp only [getCommentsByPost] at h
    split at h
    · cases h
    · injection h with h
      subst h
      intro v hv
      simp only [List.mem_map] at hv
      obtain ⟨x, hx, hvx⟩ := hv
      have hxdb : x ∈ db.comments := by
        have h1 := List.mem_of_mem_take hx
        have h2 := List.mem_of_mem_drop h1
        have h3 := (List.perm_insertionSort _ _).mem_iff.mp h2
        exact List.mem_of_mem_filter h3
      subst hvx
      exact ⟨rfl, x, hxdb, rfl, rfl⟩
  · intro db cid viewer res h
    simp only [getCommentById] at h
    split at h
    · cases h
    · rename_i c hfind
      injection h with h
      subst h
      constructor
      · exact ⟨rfl, c, findActive_mem hfind, rfl, rfl⟩
      · intro v hv
        simp only [List.mem_map] at hv
        obtain ⟨x, hx, hvx⟩ := hv
        have hxdb : x ∈ db.comments := by
          have h3 := (List.perm_insertionSort _ _).mem_iff.mp hx
          exact List.mem_of_mem_filter h3
        subst hvx
        exact ⟨rfl, x, hxdb, rfl, rfl⟩

/-- C10 witness: the first view of the concrete page for viewer 7. -/
theorem C10_likes_privacy_witness :
    wV.likes = none ∧
      ∃ c ∈ wdb.comments, wV = toView (some 7) c ∧
        wV.isLikedByCurrentUser = (some 7).map (fun u => c.likes.any (fun l => l == u)) :=
  (C10_likes_privacy.1 wdb 1 1 20 (fun c => c.createdAt) true none (some 7) wList
    (by decide)) wV (by decide)

end BlogApi
